import Mathlib

/-!
Shallow embedding of the National-County-Dashboard normalization pipeline
(`stage1_database_loader.py` and `stage2_normalization.py`).

Conventions of the embedding:
* BigQuery tables are Lean lists of structure values; SQL `NULL` is `Option`.
* SQL floating-point arithmetic is modelled over `ℚ` (the claims under study
  are exact-arithmetic claims; non-finite floats are not representable and a
  NaN result is modelled as `none`, matching the Python code's
  `None if np.isnan(...)` conversions).
* `STDDEV_SAMP` and `APPROX_QUANTILES` produce irrational / approximate
  values; the statistics builder is therefore parameterised by the functions
  computing them.  No claim constrains their numeric value.
* SQL `GROUP BY` is modelled by collecting the distinct keys in first-seen
  order and filtering the rows of each key (`sqlGroups`).
-/

namespace CountyDashboard

set_option maxRecDepth 8000

/-- Distinct elements of a list in order of first occurrence (the key list of
a SQL `GROUP BY`, also used for `COUNT(DISTINCT ...)` and pandas
`set(...tolist())`). -/
def uniqueKeys {α : Type} [DecidableEq α] (l : List α) : List α :=
  l.foldl (fun acc k => if k ∈ acc then acc else acc ++ [k]) []

/-- SQL `GROUP BY`: each distinct key together with the rows carrying it. -/
def sqlGroups {α κ : Type} [DecidableEq κ] (key : α → κ) (l : List α) :
    List (κ × List α) :=
  (uniqueKeys (l.map key)).map (fun k => (k, l.filter (fun a => key a = k)))

/-- SQL `AVG` over a nullable column: `NULL` entries are ignored; the average
of no non-`NULL` entries is `NULL`. -/
def sqlAvg (xs : List (Option ℚ)) : Option ℚ :=
  let v := xs.filterMap id
  if v.isEmpty then none else some (v.sum / v.length)

/-- BigQuery `SAFE_DIVIDE`: `NULL` on a zero divisor. -/
def safeDivide (a b : ℚ) : Option ℚ :=
  if b = 0 then none else some (a / b)

/-- `scipy.stats.percentileofscore(a, x)` with the default `kind='rank'`:
`(left + right + (1 if right > left else 0)) * 50 / len(a)` where `left`
counts elements `< x` and `right` counts elements `≤ x`. -/
def percentileOfScore (a : List ℚ) (x : ℚ) : ℚ :=
  let left := (a.filter (fun v => v < x)).length
  let right := (a.filter (fun v => v ≤ x)).length
  ((left + right + (if left < right then 1 else 0) : ℕ) : ℚ) * 50 / a.length

/-! ## Data model (BigQuery table schemas) -/

/-- One row of the `raw_metrics` table produced by stage 1.  The metadata
columns `raw_value_text`, `unit`, `year` and `column_index` are carried by the
real table but read by no stage-2 computation and are omitted. -/
structure RawMetric where
  fips : String
  metric_name : String
  raw_value : Option ℚ
  top_level : String
  sub_measure : String
  metric_group : Option String
  sub_metric_name : Option String
  is_missing : Bool
deriving DecidableEq

/-- One row of the `metric_statistics` table. -/
structure MetricStatistics where
  metric_name : String
  total_counties : ℕ
  valid_counties : ℕ
  missing_counties : ℕ
  mean_value : Option ℚ
  std_dev : Option ℚ
  min_value : Option ℚ
  max_value : Option ℚ
  median_value : Option ℚ
  is_reverse_metric : Bool
  data_quality_score : Option ℚ
deriving DecidableEq

/-- One row of the `normalized_metrics` table. -/
structure NormalizedMetric where
  fips : String
  metric_name : String
  raw_value : Option ℚ
  normalized_value : Option ℚ
  percentile_rank : Option ℚ
  is_missing : Bool
deriving DecidableEq

/-- One row of the `aggregated_scores` table. -/
structure AggregatedScore where
  fips : String
  measure_name : String
  measure_level : String
  parent_measure : Option String
  raw_score : Option ℚ
  normalized_score : Option ℚ
  percentile_rank : Option ℚ
  component_count : ℕ
  missing_components : ℕ
  completeness_ratio : Option ℚ
deriving DecidableEq

/-! ## Stage 1: loader (`stage1_database_loader.py`) -/

/-- Python `str.strip()` default whitespace set (`\x0b` is `\v`, `\x0c`
is `\f`). -/
def pyIsSpace (c : Char) : Bool :=
  c = ' ' || c = '\t' || c = '\n' || c = '\r' || c = '\x0b' || c = '\x0c'

/-- Python `str.strip()`. -/
def pyStrip (s : String) : String :=
  ⟨((s.toList.dropWhile pyIsSpace).reverse.dropWhile pyIsSpace).reverse⟩

/-- Python `str.upper()` (ASCII fragment). -/
def pyUpper (s : String) : String :=
  ⟨s.toList.map Char.toUpper⟩

/-- Python `str.capitalize()` (ASCII fragment): first character upper-cased,
the remainder lower-cased. -/
def pyCapitalize (s : String) : String :=
  match s.toList with
  | [] => ""
  | c :: rest => ⟨Char.toUpper c :: rest.map Char.toLower⟩

/-- The character class of `re.sub(r'[$,\s%]', '', ...)`. -/
def isFormatChar (c : Char) : Bool :=
  c = '$' || c = ',' || c = '%' || pyIsSpace c

/-- Split a character list at every occurrence of `c` (Python
`str.split(c)` on a non-empty separator). -/
def splitOnChar (c : Char) (l : List Char) : List (List Char) :=
  l.foldr
    (fun x acc =>
      if x = c then [] :: acc
      else
        match acc with
        | h :: t => (x :: h) :: t
        | [] => [[x]])
    [[]]

def natOfDigits (l : List Char) : ℕ :=
  l.foldl (fun acc c => acc * 10 + (c.toNat - 48)) 0

/-- Parse an optionally signed non-empty digit string (the exponent part of a
float literal). -/
def parseSignedNat (l : List Char) : Option ℤ :=
  let (sign, digits) : ℤ × List Char :=
    match l with
    | '+' :: t => (1, t)
    | '-' :: t => (-1, t)
    | t => (1, t)
  if digits.isEmpty || !digits.all Char.isDigit then none
  else some (sign * natOfDigits digits)

/-- Parse an unsigned mantissa: digits with at most one decimal point, at
least one digit overall. -/
def parseMantissa (l : List Char) : Option ℚ :=
  match splitOnChar '.' l with
  | [intPart] =>
    if intPart.isEmpty || !intPart.all Char.isDigit then none
    else some (natOfDigits intPart)
  | [intPart, fracPart] =>
    if (intPart.isEmpty && fracPart.isEmpty)
        || !intPart.all Char.isDigit || !fracPart.all Char.isDigit then none
    else
      some ((natOfDigits (intPart ++ fracPart) : ℚ) /
        ((10 ^ fracPart.length : ℕ) : ℚ))
  | _ => none

/-- Python `float(...)` on an upper-cased, whitespace-free string, restricted
to the finite decimal fragment (optional sign, digits with an optional
decimal point, optional `E`-exponent).  Non-finite literals (`INF`, `NAN`)
have no counterpart in `ℚ`; `NAN` is in any case intercepted earlier by the
missing-sentinel check of `clean_numeric_value`. -/
def parseFloat (s : String) : Option ℚ :=
  let (sign, rest) : ℚ × List Char :=
    match s.toList with
    | '+' :: t => (1, t)
    | '-' :: t => (-1, t)
    | t => (1, t)
  match splitOnChar 'E' rest with
  | [mant] => (parseMantissa mant).map (fun m => sign * m)
  | [mant, expPart] =>
    (parseMantissa mant).bind (fun m =>
      (parseSignedNat expPart).map (fun e =>
        if 0 ≤ e then sign * m * ((10 ^ e.toNat : ℕ) : ℚ)
        else sign * m / ((10 ^ (-e).toNat : ℕ) : ℚ)))
  | _ => none

/-- `BigQueryDataLoader.clean_numeric_value`: returns
`(cleaned value, is_missing)`. -/
def clean_numeric_value (value_str : String) : Option ℚ × Bool :=
  let clean_str := pyUpper (pyStrip value_str)
  if clean_str = "" || clean_str ∈ ["NA", "NULL", "NAN", "N/A", "NONE"] then
    (none, true)
  else
    let stripped := ⟨clean_str.toList.filter (fun c => !isFormatChar c)⟩
    let negated :=
      if stripped.startsWith "(" && stripped.endsWith ")" then
        "-" ++ (stripped.drop 1).dropRight 1
      else stripped
    match parseFloat negated with
    | some v => (v, false)
    | none => (none, true)

/-- Result of `BigQueryDataLoader.parse_metric_hierarchy`. -/
structure MetricHierarchy where
  original_name : String
  top_level : String
  sub_measure : String
  metric_group : Option String
  sub_metric_name : Option String
deriving DecidableEq

/-- `BigQueryDataLoader.parse_metric_hierarchy`: `none` for column names
with fewer than two `_`-separated segments. -/
def parse_metric_hierarchy (column_name : String) : Option MetricHierarchy :=
  match column_name.splitOn "_" with
  | p0 :: p1 :: rest =>
    some
      { original_name := column_name
        top_level := pyCapitalize p0
        sub_measure := pyCapitalize p1
        metric_group :=
          match rest with
          | [] => some (pyCapitalize p1)
          | g :: _ => some g
        sub_metric_name :=
          match rest with
          | [] => some (pyCapitalize p1)
          | [g] => some g
          | _ :: t => some (String.intercalate "_" t) }
  | _ => none

/-! ## Stage 2: normalizer (`stage2_normalization.py`) -/

/-- `BigQuerySustainabilityNormalizer.reverse_metrics`: the hardcoded set of
metrics where a lower raw value is better. -/
def reverse_metrics : List String :=
  [ "PEOPLE_HEALTH_LENGTHOFLIFE_PREMATUREDEATH",
    "PEOPLE_HEALTH_QUALITYOFLIFE_FREQPHYDISTRESS",
    "PEOPLE_HEALTH_QUALITYOFLIFE_FREQMENDISTRESS",
    "PEOPLE_HEALTH_QUALITYOFLIFE_ADULTWITHDIABETES",
    "PEOPLE_HEALTH_QUALITYOFLIFE_HIVPREVRATE",
    "PEOPLE_HEALTH_HEALTHBEHAVIOURS_ADULTSWITHOBESITY",
    "PEOPLE_HEALTH_HEALTHBEHAVIOURS_ADULTSSMOKING",
    "PEOPLE_HEALTH_HEALTHBEHAVIOURS_EXCESSIVEDRINKING",
    "PEOPLE_HEALTH_HEALTHBEHAVIOURS_PHYSICALLYINACTIVE",
    "PEOPLE_HEALTH_HEALTHBEHAVIOURS_INSUFFICIENTSLEEP",
    "PEOPLE_HEALTH_HEALTHRESOURCES_ACCESSTOCARE_UNINSURED",
    "PEOPLE_HEALTH_HEALTHRESOURCES_QUALITYOFCARE_PREVENTABLEHOSPITALIZATIONRATE",
    "PEOPLE_COMMUNITY_SEVEREHOUSINGPROBLEMS",
    "PEOPLE_COMMUNITY_FOODINSECURITY",
    "PEOPLE_COMMUNITY_LONGCOMMUTEANDDRIVESALONE",
    "PEOPLE_COMMUNITY_VIOLENTCRIMERATE",
    "PEOPLE_WEALTH_INCOMERATIO80BY20",
    "PEOPLE_WEALTH_CHILDPOVERTY",
    "PRODUCTIVITY_GOVERNMENT_VIOLENTCRIMERATE",
    "PRODUCTIVITY_GOVERNMENT_SEVEREHOUSINGPROBLEMS",
    "PRODUCTIVITY_GOVERNMENT_DEPENDENCYRATIO",
    "PRODUCTIVITY_EMPLOYMENT_UNEMPLOYMENTRATE",
    "PLACE_CLIMATEANDRESILIENCE_CO2ORCAPITA",
    "Place_LandAirWater_AirQualityIndexPerPm2.5",
    "PLACE_LANDAIRWATER_WATERCONSERVATIONORGALLONSORPERSONORDAY" ]

/-- `calculate_metric_statistics`: the `INSERT ... SELECT` over `raw_metrics`
(`WHERE raw_value IS NOT NULL GROUP BY metric_name HAVING
COUNTIF(is_missing = FALSE) >= 10`), folded together with the follow-up
`UPDATE` that sets `is_reverse_metric` from the hardcoded set.  `STDDEV_SAMP`
and `APPROX_QUANTILES` (the median) are passed in as `stddev` and `median`
since their values are irrational/approximate; no claim constrains them. -/
def calculate_metric_statistics (raw : List RawMetric)
    (stddev median : List ℚ → Option ℚ) : List MetricStatistics :=
  let rows := raw.filter (fun r => r.raw_value ≠ none)
  (sqlGroups (fun r => r.metric_name) rows).filterMap (fun kg =>
    let g := kg.2
    let validCount := (g.filter (fun r => r.is_missing = false)).length
    if 10 ≤ validCount then
      some
        { metric_name := kg.1
          total_counties := g.length
          valid_counties := validCount
          missing_counties := (g.filter (fun r => r.is_missing = true)).length
          mean_value := sqlAvg (g.map (fun r => r.raw_value))
          std_dev := stddev (g.filterMap (fun r => r.raw_value))
          min_value := (g.filterMap (fun r => r.raw_value)).min?
          max_value := (g.filterMap (fun r => r.raw_value)).max?
          median_value := median (g.filterMap (fun r => r.raw_value))
          is_reverse_metric := kg.1 ∈ reverse_metrics
          data_quality_score := safeDivide validCount g.length }
    else none)

/-- The `all_values` query of `normalize_metrics`: the valid raw values of
one metric (`WHERE metric_name = ... AND is_missing = FALSE AND raw_value IS
NOT NULL`). -/
def validValues (raw : List RawMetric) (name : String) : List ℚ :=
  (raw.filter (fun r =>
    r.metric_name = name && r.is_missing = false && r.raw_value ≠ none)).filterMap
    (fun r => r.raw_value)

/-- The body of the per-row loop of `normalize_metrics`: Z-score against the
metric statistics and `percentileofscore` against the valid-value
distribution, inverted for reverse metrics.  A NaN Z-score (absent mean or
standard deviation) and a NaN percentile (empty distribution) become
`none`. -/
def normalizeRow (st : MetricStatistics) (all_values : List ℚ)
    (r : RawMetric) : NormalizedMetric :=
  if r.is_missing || r.raw_value = none then
    { fips := r.fips, metric_name := st.metric_name, raw_value := r.raw_value
      normalized_value := none, percentile_rank := none
      is_missing := r.is_missing }
  else
    let v := r.raw_value.getD 0
    let z : Option ℚ :=
      match st.mean_value, st.std_dev with
      | some m, some s => some ((v - m) / s)
      | _, _ => none
    let p : Option ℚ :=
      if all_values.isEmpty then none
      else if st.is_reverse_metric then
        some (100 - percentileOfScore all_values v)
      else some (percentileOfScore all_values v)
    { fips := r.fips, metric_name := st.metric_name, raw_value := r.raw_value
      normalized_value := z, percentile_rank := p
      is_missing := r.is_missing }

/-- The per-metric loop of `normalize_metrics`: iterate over the statistics
rows with `std_dev > 0`, skip metrics in `processed`, and emit the freshly
normalized rows of the rest. -/
def normalizeNewRows (stats : List MetricStatistics) (raw : List RawMetric)
    (processed : List String) : List NormalizedMetric :=
  (stats.filter (fun st =>
    match st.std_dev with
    | some s => 0 < s
    | none => false)).flatMap (fun st =>
      if st.metric_name ∈ processed then []
      else
        (raw.filter (fun r => r.metric_name = st.metric_name)).map
          (normalizeRow st (validValues raw st.metric_name)))

/-- `normalize_metrics`: the already-processed set is the distinct
`metric_name`s present in `normalized_metrics`; the new rows are appended
(`WRITE_APPEND`).  The result is the new contents of the
`normalized_metrics` table. -/
def normalize_metrics (stats : List MetricStatistics) (raw : List RawMetric)
    (existing : List NormalizedMetric) : List NormalizedMetric :=
  existing ++
    normalizeNewRows stats raw (uniqueKeys (existing.map (fun r => r.metric_name)))

/-- The `JOIN` of `normalized_metrics` with `raw_metrics` on
`(fips, metric_name)` used by the aggregation passes. -/
def joinRows (nm : List NormalizedMetric) (rm : List RawMetric) :
    List (NormalizedMetric × RawMetric) :=
  nm.flatMap (fun n =>
    (rm.filter (fun r => r.fips = n.fips && r.metric_name = n.metric_name)).map
      (fun r => (n, r)))

/-- Grouping key of Pass 1 (`GROUP BY nm.fips, rm.top_level, rm.sub_measure,
rm.metric_group`). -/
def groupKey1 (p : NormalizedMetric × RawMetric) :
    String × String × String × Option String :=
  (p.1.fips, p.2.top_level, p.2.sub_measure, p.2.metric_group)

/-- The keyed groups of Pass 1: joined rows with a non-`NULL` `metric_group`,
grouped by `(fips, top_level, sub_measure, metric_group)`. -/
def metricGroupGroups (nm : List NormalizedMetric) (rm : List RawMetric) :
    List ((String × String × String × Option String) ×
      List (NormalizedMetric × RawMetric)) :=
  sqlGroups groupKey1
    ((joinRows nm rm).filter (fun p => p.2.metric_group ≠ none))

/-- Number of distinct leaf metric names in a group
(`COUNT(DISTINCT rm.metric_name)`). -/
def distinctMetricCount (ch : List (NormalizedMetric × RawMetric)) : ℕ :=
  (uniqueKeys (ch.map (fun p => p.2.metric_name))).length

/-- The `SELECT` list of Pass 1 for one group.  The `WHERE` clause guarantees
the key's `metric_group` is non-`NULL`, so the `getD ""` default is never
taken. -/
def metricGroupRow (k : String × String × String × Option String)
    (ch : List (NormalizedMetric × RawMetric)) : AggregatedScore :=
  let pct := sqlAvg (ch.map (fun p =>
    if p.1.is_missing = false then p.1.percentile_rank else none))
  { fips := k.1
    measure_name := k.2.1 ++ "_" ++ k.2.2.1 ++ "_" ++ k.2.2.2.getD ""
    measure_level := "metric_group"
    parent_measure := some (k.2.1 ++ "_" ++ k.2.2.1)
    raw_score := pct
    normalized_score := sqlAvg (ch.map (fun p =>
      if p.1.is_missing = false then p.1.normalized_value else none))
    percentile_rank := pct
    component_count := ch.length
    missing_components := (ch.filter (fun p => p.1.is_missing = true)).length
    completeness_ratio :=
      safeDivide ((ch.filter (fun p => p.1.is_missing = false)).length)
        ch.length }

/-- `aggregate_metric_groups` (Pass 1): one `aggregated_scores` row per group
satisfying `HAVING COUNT(DISTINCT rm.metric_name) > 1`. -/
def aggregate_metric_groups (nm : List NormalizedMetric)
    (rm : List RawMetric) : List AggregatedScore :=
  (metricGroupGroups nm rm).filterMap (fun kg =>
    if 1 < distinctMetricCount kg.2 then some (metricGroupRow kg.1 kg.2)
    else none)

/-- A row of one of the two CTEs of `aggregate_sub_measures`. -/
structure SubMeasureCTE where
  fips : String
  measure_name : String
  avg_normalized : Option ℚ
  avg_percentile : Option ℚ
  component_count : ℕ
  missing_count : ℕ
deriving DecidableEq

/-- The `temp_submeasure_metrics` CTE: ALL joined leaf rows grouped by
`(fips, top_level, sub_measure)` — note the absence of any filter excluding
metrics that already belong to a Pass-1 metric group. -/
def temp_submeasure_metrics (nm : List NormalizedMetric)
    (rm : List RawMetric) : List SubMeasureCTE :=
  (sqlGroups (fun p => (p.1.fips, p.2.top_level, p.2.sub_measure))
      (joinRows nm rm)).map (fun kg =>
    { fips := kg.1.1
      measure_name := kg.1.2.1 ++ "_" ++ kg.1.2.2
      avg_normalized := sqlAvg (kg.2.map (fun p =>
        if p.1.is_missing = false then p.1.normalized_value else none))
      avg_percentile := sqlAvg (kg.2.map (fun p =>
        if p.1.is_missing = false then p.1.percentile_rank else none))
      component_count := kg.2.length
      missing_count := (kg.2.filter (fun p => p.1.is_missing = true)).length })

/-- The `temp_submeasure_groups` CTE: Pass-1 `metric_group` rows grouped by
`(fips, parent_measure)`.  Its `component_count` is `COUNT(*)` — the number
of group ROWS — and its averages are plain `AVG`s of the group rows' scores.
A `NULL` `parent_measure` (which Pass 1 never emits) could neither join on
`measure_name` nor be inserted into the `REQUIRED` `measure_name` column, so
such groups are dropped. -/
def temp_submeasure_groups (agg : List AggregatedScore) :
    List SubMeasureCTE :=
  (sqlGroups (fun r => (r.fips, r.parent_measure))
      (agg.filter (fun r => r.measure_level = "metric_group"))).filterMap
    (fun kg =>
      match kg.1.2 with
      | some parent =>
        some
          { fips := kg.1.1
            measure_name := parent
            avg_normalized := sqlAvg (kg.2.map (fun r => r.normalized_score))
            avg_percentile := sqlAvg (kg.2.map (fun r => r.percentile_rank))
            component_count := kg.2.length
            missing_count := (kg.2.map (fun r => r.missing_components)).sum }
      | none => none)

/-- The final `SELECT` of `aggregate_sub_measures` for one pair of the
`FULL OUTER JOIN` (at least one side is present). -/
def subMeasureRow (om og : Option SubMeasureCTE) : AggregatedScore :=
  let name :=
    match om with
    | some m => m.measure_name
    | none => (og.map (fun g => g.measure_name)).getD ""
  let mPct := (om.bind (fun m => m.avg_percentile)).getD 0
  let gPct := (og.bind (fun g => g.avg_percentile)).getD 0
  let mNorm := (om.bind (fun m => m.avg_normalized)).getD 0
  let gNorm := (og.bind (fun g => g.avg_normalized)).getD 0
  let mCnt := (om.map (fun m => m.component_count)).getD 0
  let gCnt := (og.map (fun g => g.component_count)).getD 0
  let mMiss := (om.map (fun m => m.missing_count)).getD 0
  let gMiss := (og.map (fun g => g.missing_count)).getD 0
  let pct := safeDivide (mPct * mCnt + gPct * gCnt) (mCnt + gCnt)
  { fips := ((om.map (fun m => m.fips)).orElse
      (fun _ => og.map (fun g => g.fips))).getD ""
    measure_name := name
    measure_level := "sub_measure"
    parent_measure := some ((name.splitOn "_").headD "")
    raw_score := pct
    normalized_score := safeDivide (mNorm * mCnt + gNorm * gCnt) (mCnt + gCnt)
    percentile_rank := pct
    component_count := mCnt + gCnt
    missing_components := mMiss + gMiss
    completeness_ratio :=
      safeDivide ((mCnt + gCnt : ℚ) - (mMiss + gMiss : ℚ)) (mCnt + gCnt) }

/-- `aggregate_sub_measures` (Pass 2): `FULL OUTER JOIN` of the two CTEs on
`(fips, measure_name)` (both CTEs are keyed by that pair, so matches are
unique). -/
def aggregate_sub_measures (nm : List NormalizedMetric)
    (agg : List AggregatedScore) (rm : List RawMetric) :
    List AggregatedScore :=
  let ms := temp_submeasure_metrics nm rm
  let gs := temp_submeasure_groups agg
  ms.map (fun m =>
    subMeasureRow (some m)
      (gs.find? (fun g => g.fips = m.fips && g.measure_name = m.measure_name)))
  ++ (gs.filter (fun g =>
      !ms.any (fun m => m.fips = g.fips && m.measure_name = g.measure_name))).map
    (fun g => subMeasureRow none (some g))

/-- The `SELECT` list of Pass 3 for one `(fips, parent_measure)` group.  The
`WHERE ... IN` filter guarantees the key's `parent_measure` is non-`NULL`,
so the `getD ""` default is never taken. -/
def topLevelRow (k : String × Option String) (rows : List AggregatedScore) :
    AggregatedScore :=
  let pct := sqlAvg (rows.map (fun r =>
    if r.normalized_score ≠ none then r.percentile_rank else none))
  { fips := k.1
    measure_name := k.2.getD ""
    measure_level := "top_level"
    parent_measure := none
    raw_score := pct
    normalized_score := sqlAvg (rows.map (fun r =>
      if r.normalized_score ≠ none then r.normalized_score else none))
    percentile_rank := pct
    component_count := rows.length
    missing_components :=
      (rows.filter (fun r => r.normalized_score = none)).length
    completeness_ratio :=
      safeDivide ((rows.filter (fun r => r.normalized_score ≠ none)).length)
        rows.length }

/-- `aggregate_top_level_measures` (Pass 3): `sub_measure` rows whose
`parent_measure` is one of the three hardcoded categories, grouped by
`(fips, parent_measure)` and averaged with equal weight per row. -/
def aggregate_top_level_measures (agg : List AggregatedScore) :
    List AggregatedScore :=
  let subs := agg.filter (fun r =>
    r.measure_level = "sub_measure" &&
      (r.parent_measure = some "People" ||
        r.parent_measure = some "Productivity" ||
        r.parent_measure = some "Place"))
  (sqlGroups (fun r => (r.fips, r.parent_measure)) subs).map
    (fun kg => topLevelRow kg.1 kg.2)

/-! ## Concrete table fixtures

Small concrete tables used to evaluate the pipeline at explicit inputs.
`mkRaw` builds a `raw_metrics` row the way `load_metrics_data` does: the
hierarchy columns come from `parse_metric_hierarchy` on the column name. -/

/-- A `raw_metrics` row as stage 1 loads it (hierarchy parsed from the
metric name; an unparseable name would be skipped by the loader and is given
empty hierarchy fields here). -/
def mkRaw (fips name : String) (v : Option ℚ) (miss : Bool) : RawMetric :=
  match parse_metric_hierarchy name with
  | some h =>
    { fips := fips, metric_name := name, raw_value := v,
      top_level := h.top_level, sub_measure := h.sub_measure,
      metric_group := h.metric_group, sub_metric_name := h.sub_metric_name,
      is_missing := miss }
  | none =>
    { fips := fips, metric_name := name, raw_value := v,
      top_level := "", sub_measure := "", metric_group := none,
      sub_metric_name := none, is_missing := miss }

/-- A `normalized_metrics` row fixture. -/
def mkNorm (fips name : String) (z p : Option ℚ) (miss : Bool) :
    NormalizedMetric :=
  { fips := fips, metric_name := name, raw_value := none,
    normalized_value := z, percentile_rank := p, is_missing := miss }

/-- Fixture: one county, a metric group `G` of five leaves at percentile 80
plus one flat 2-segment leaf at percentile 20 (`raw_metrics` side). -/
def rmWeighted : List RawMetric :=
  [ mkRaw "01001" "PEOPLE_HEALTH_G_M1" (some 1) false,
    mkRaw "01001" "PEOPLE_HEALTH_G_M2" (some 1) false,
    mkRaw "01001" "PEOPLE_HEALTH_G_M3" (some 1) false,
    mkRaw "01001" "PEOPLE_HEALTH_G_M4" (some 1) false,
    mkRaw "01001" "PEOPLE_HEALTH_G_M5" (some 1) false,
    mkRaw "01001" "PEOPLE_HEALTH" (some 1) false ]

/-- Fixture: the matching `normalized_metrics` rows for `rmWeighted`. -/
def nmWeighted : List NormalizedMetric :=
  [ mkNorm "01001" "PEOPLE_HEALTH_G_M1" (some 1) (some 80) false,
    mkNorm "01001" "PEOPLE_HEALTH_G_M2" (some 1) (some 80) false,
    mkNorm "01001" "PEOPLE_HEALTH_G_M3" (some 1) (some 80) false,
    mkNorm "01001" "PEOPLE_HEALTH_G_M4" (some 1) (some 80) false,
    mkNorm "01001" "PEOPLE_HEALTH_G_M5" (some 1) (some 80) false,
    mkNorm "01001" "PEOPLE_HEALTH" (some 1) (some 20) false ]

/-- Fixture: a two-leaf metric group whose leaves are both missing for the
county. -/
def rmAllMissing : List RawMetric :=
  [ mkRaw "01001" "PEOPLE_HEALTH_G_M1" none true,
    mkRaw "01001" "PEOPLE_HEALTH_G_M2" none true ]

/-- Fixture: the matching all-missing `normalized_metrics` rows. -/
def nmAllMissing : List NormalizedMetric :=
  [ mkNorm "01001" "PEOPLE_HEALTH_G_M1" none none true,
    mkNorm "01001" "PEOPLE_HEALTH_G_M2" none none true ]

/-- Fixture: a three-leaf metric group with one missing leaf; the present
Z-scores are 1 and 3, the present percentiles 10 and 30. -/
def rmOneMissing : List RawMetric :=
  [ mkRaw "01001" "PEOPLE_HEALTH_G_M1" (some 1) false,
    mkRaw "01001" "PEOPLE_HEALTH_G_M2" (some 3) false,
    mkRaw "01001" "PEOPLE_HEALTH_G_M3" none true ]

/-- Fixture: the matching `normalized_metrics` rows for `rmOneMissing`. -/
def nmOneMissing : List NormalizedMetric :=
  [ mkNorm "01001" "PEOPLE_HEALTH_G_M1" (some 1) (some 10) false,
    mkNorm "01001" "PEOPLE_HEALTH_G_M2" (some 3) (some 30) false,
    mkNorm "01001" "PEOPLE_HEALTH_G_M3" none none true ]

/-- Fixture: a flat 2-segment metric (`metric_group` = capitalized
`sub_measure`) next to a 3-segment metric whose third path segment is the
same capitalized word, so both land in the group `(People, Health,
Health)`. -/
def rmFlatCollision : List RawMetric :=
  [ mkRaw "01001" "PEOPLE_HEALTH" (some 1) false,
    mkRaw "01001" "PEOPLE_HEALTH_Health" (some 2) false ]

/-- Fixture: the matching `normalized_metrics` rows for
`rmFlatCollision`. -/
def nmFlatCollision : List NormalizedMetric :=
  [ mkNorm "01001" "PEOPLE_HEALTH" (some 0) (some 40) false,
    mkNorm "01001" "PEOPLE_HEALTH_Health" (some 1) (some 60) false ]

/-- Fixture: two singleton groups — one isolated flat 2-segment metric and
one single-leaf nested group — neither of which may produce a Pass-1 row. -/
def rmSingletons : List RawMetric :=
  [ mkRaw "01001" "PEOPLE_HEALTH" (some 1) false,
    mkRaw "01001" "PEOPLE_WEALTH_G_M1" (some 2) false ]

/-- Fixture: the matching `normalized_metrics` rows for `rmSingletons`. -/
def nmSingletons : List NormalizedMetric :=
  [ mkNorm "01001" "PEOPLE_HEALTH" (some 0) (some 40) false,
    mkNorm "01001" "PEOPLE_WEALTH_G_M1" (some 1) (some 60) false ]

/-- Fixture: two `sub_measure` rows under `People`, one backed by 20
components at percentile 90 and one backed by 2 components at
percentile 10. -/
def subTwoRows : List AggregatedScore :=
  [ { fips := "01001", measure_name := "People_Health",
      measure_level := "sub_measure", parent_measure := some "People",
      raw_score := some 90, normalized_score := some 1,
      percentile_rank := some 90, component_count := 20,
      missing_components := 0, completeness_ratio := some 1 },
    { fips := "01001", measure_name := "People_Wealth",
      measure_level := "sub_measure", parent_measure := some "People",
      raw_score := some 10, normalized_score := some 0,
      percentile_rank := some 10, component_count := 2,
      missing_components := 0, completeness_ratio := some 1 } ]

/-- Fixture: a `sub_measure` row whose leading path segment is the renamed
presentation-layer category `Society` rather than a warehouse category. -/
def subSocietyRow : List AggregatedScore :=
  [ { fips := "01001", measure_name := "Society_Health",
      measure_level := "sub_measure", parent_measure := some "Society",
      raw_score := some 90, normalized_score := some 1,
      percentile_rank := some 90, component_count := 3,
      missing_components := 0, completeness_ratio := some 1 } ]

/-- Fixture: one metric with ten valid and five missing raw observations. -/
def rmTenValidFiveMissing : List RawMetric :=
  (List.range 10).map (fun i =>
    mkRaw (toString i) "PEOPLE_HEALTH_X" (some (i : ℚ)) false)
  ++ (List.range 5).map (fun i =>
    mkRaw (toString (10 + i)) "PEOPLE_HEALTH_X" none true)

/-- Fixture: a raw observation of value 1 for `PEOPLE_HEALTH_X`. -/
def rAW : RawMetric := mkRaw "01001" "PEOPLE_HEALTH_X" (some 1) false

/-- Fixture: a raw observation of value 2 for `PEOPLE_HEALTH_X`. -/
def rBW : RawMetric := mkRaw "01003" "PEOPLE_HEALTH_X" (some 2) false

/-- Fixture: three valid observations of one non-reverse metric for the
normalizer. -/
def rawThree : List RawMetric :=
  [rAW, rBW, mkRaw "01005" "PEOPLE_HEALTH_X" (some 3) false]

/-- Fixture: a `normalized_metrics` table that already holds a row for
`PEOPLE_HEALTH_X`. -/
def existingW : List NormalizedMetric :=
  [mkNorm "01001" "PEOPLE_HEALTH_X" (some 0) (some 50) false]

/-- The Pass-1 row the pipeline computes for the one-missing-leaf fixture. -/
def oneMissingRow : AggregatedScore :=
  { fips := "01001", measure_name := "People_Health_G",
    measure_level := "metric_group", parent_measure := some "People_Health",
    raw_score := some 20, normalized_score := some 2,
    percentile_rank := some 20, component_count := 3,
    missing_components := 1, completeness_ratio := some (2 / 3) }

/-- The Pass-1 row the pipeline computes for the flat/nested name-collision
fixture: its `metric_group` segment `Health` coincides with the
`sub_measure`. -/
def collisionRow : AggregatedScore :=
  { fips := "01001", measure_name := "People_Health_Health",
    measure_level := "metric_group", parent_measure := some "People_Health",
    raw_score := some 50, normalized_score := some (1 / 2),
    percentile_rank := some 50, component_count := 2,
    missing_components := 0, completeness_ratio := some 1 }

/-- The Pass-2 row the pipeline computes for the weighted fixture. -/
def weightedSubRow : AggregatedScore :=
  { fips := "01001", measure_name := "People_Health",
    measure_level := "sub_measure", parent_measure := some "People",
    raw_score := some (500 / 7), normalized_score := some 1,
    percentile_rank := some (500 / 7), component_count := 7,
    missing_components := 0, completeness_ratio := some 1 }

/-- The Pass-3 row the pipeline computes for `subTwoRows`. -/
def peopleTopRow : AggregatedScore :=
  { fips := "01001", measure_name := "People",
    measure_level := "top_level", parent_measure := none,
    raw_score := some 50, normalized_score := some (1 / 2),
    percentile_rank := some 50, component_count := 2,
    missing_components := 0, completeness_ratio := some 1 }

/-- Fixture: a Pass-1 group key. -/
def keyFixture : String × String × String × Option String :=
  ("01001", "People", "Health", some "G")

/-- Fixture: one valid joined child row for `keyFixture`. -/
def chFixture : List (NormalizedMetric × RawMetric) :=
  [(mkNorm "01001" "PEOPLE_HEALTH_G_M1" (some 1) (some 10) false,
    mkRaw "01001" "PEOPLE_HEALTH_G_M1" (some 1) false)]

/-- Fixture: one missing joined child row for `keyFixture`. -/
def extraFixture : List (NormalizedMetric × RawMetric) :=
  [(mkNorm "01001" "PEOPLE_HEALTH_G_M3" none none true,
    mkRaw "01001" "PEOPLE_HEALTH_G_M3" none true)]

/-- Fixture: a statistics row for `PEOPLE_HEALTH_X` (not reverse). -/
def statPlain : MetricStatistics :=
  { metric_name := "PEOPLE_HEALTH_X", total_counties := 3,
    valid_counties := 3, missing_counties := 0, mean_value := some 2,
    std_dev := some 1, min_value := some 1, max_value := some 3,
    median_value := some 2, is_reverse_metric := false,
    data_quality_score := some 1 }

/-! ## Supporting lemmas -/

theorem mem_uniqueKeys {α : Type} [DecidableEq α] {x : α} {l : List α} :
    x ∈ uniqueKeys l ↔ x ∈ l := by
  have main : ∀ (l acc : List α) (x : α),
      x ∈ l.foldl (fun acc k => if k ∈ acc then acc else acc ++ [k]) acc ↔
        x ∈ acc ∨ x ∈ l := by
    intro l
    induction l with
    | nil => intro acc x; simp
    | cons h t ih =>
      intro acc x
      simp only [List.foldl_cons]
      by_cases hmem : h ∈ acc
      · rw [if_pos hmem, ih]
        simp only [List.mem_cons]
        constructor
        · rintro (hx | hx)
          · exact Or.inl hx
          · exact Or.inr (Or.inr hx)
        · rintro (hx | rfl | hx)
          · exact Or.inl hx
          · exact Or.inl hmem
          · exact Or.inr hx
      · rw [if_neg hmem, ih]
        simp only [List.mem_append, List.mem_singleton, List.mem_cons]
        tauto
  simpa [uniqueKeys] using main l [] x

theorem mem_sqlGroups {α κ : Type} [DecidableEq κ] {key : α → κ}
    {l : List α} {kg : κ × List α} (h : kg ∈ sqlGroups key l) :
    kg.1 ∈ l.map key ∧ kg.2 = l.filter (fun a => key a = kg.1) := by
  unfold sqlGroups at h
  rcases List.mem_map.1 h with ⟨k, hk, rfl⟩
  exact ⟨mem_uniqueKeys.1 hk, rfl⟩

theorem sqlGroups_snd_ne_nil {α κ : Type} [DecidableEq κ] {key : α → κ}
    {l : List α} {kg : κ × List α} (h : kg ∈ sqlGroups key l) :
    kg.2 ≠ [] := by
  obtain ⟨hk, hflt⟩ := mem_sqlGroups h
  rcases List.mem_map.1 hk with ⟨a, ha, hkey⟩
  intro hnil
  have hmem : a ∈ kg.2 := by
    rw [hflt]
    exact List.mem_filter.2 ⟨ha, by simp [hkey]⟩
  rw [hnil] at hmem
  exact List.not_mem_nil a hmem

theorem sqlGroups_length_pos {α κ : Type} [DecidableEq κ] {key : α → κ}
    {l : List α} {kg : κ × List α} (h : kg ∈ sqlGroups key l) :
    1 ≤ kg.2.length :=
  List.length_pos.2 (sqlGroups_snd_ne_nil h)

theorem sqlGroups_exists_of_mem {α κ : Type} [DecidableEq κ] {key : α → κ}
    {l : List α} {a : α} (ha : a ∈ l) :
    ∃ kg ∈ sqlGroups key l, kg.1 = key a := by
  refine ⟨(key a, l.filter (fun x => key x = key a)), ?_, rfl⟩
  unfold sqlGroups
  exact List.mem_map.2
    ⟨key a, mem_uniqueKeys.2 (List.mem_map_of_mem key ha), rfl⟩

theorem sqlGroups_map {α κ : Type} [DecidableEq κ] (key : α → κ) (g : α → α)
    (hkey : ∀ a, key (g a) = key a) (l : List α) :
    sqlGroups key (l.map g) =
      (sqlGroups key l).map (fun kg => (kg.1, kg.2.map g)) := by
  unfold sqlGroups
  have hkeys : (l.map g).map key = l.map key := by
    rw [List.map_map]
    exact List.map_congr_left (fun a _ => hkey a)
  rw [hkeys, List.map_map]
  apply List.map_congr_left
  intro k _
  simp only [Function.comp_apply]
  refine congrArg (fun t => (k, t)) ?_
  rw [List.filter_map]
  refine congrArg (List.map g) ?_
  apply List.filter_congr
  intro a _
  simp [hkey a]

theorem length_filter_le_of_imp {α : Type} {l : List α} {p q : α → Bool}
    (h : ∀ a, p a → q a) : (l.filter p).length ≤ (l.filter q).length :=
  (List.monotone_filter_right l h).length_le

theorem percentileOfScore_mono (l : List ℚ) {a b : ℚ} (hab : a < b) :
    percentileOfScore l a ≤ percentileOfScore l b := by
  unfold percentileOfScore
  have h1 : (l.filter (fun v => v ≤ a)).length ≤
      (l.filter (fun v => v < b)).length := by
    apply length_filter_le_of_imp
    intro v hv
    simp only [decide_eq_true_eq] at hv ⊢
    exact lt_of_le_of_lt hv hab
  have h2 : (l.filter (fun v => v < a)).length ≤
      (l.filter (fun v => v ≤ a)).length := by
    apply length_filter_le_of_imp
    intro v hv
    simp only [decide_eq_true_eq] at hv ⊢
    exact le_of_lt hv
  have h3 : (l.filter (fun v => v ≤ a)).length ≤
      (l.filter (fun v => v ≤ b)).length := by
    apply length_filter_le_of_imp
    intro v hv
    simp only [decide_eq_true_eq] at hv ⊢
    exact le_trans hv (le_of_lt hab)
  set la := (l.filter (fun v => v < a)).length
  set ra := (l.filter (fun v => v ≤ a)).length
  set lb := (l.filter (fun v => v < b)).length
  set rb := (l.filter (fun v => v ≤ b)).length
  have hnum : la + ra + (if la < ra then 1 else 0) ≤
      lb + rb + (if lb < rb then 1 else 0) := by
    by_cases hia : la < ra <;> by_cases hib : lb < rb <;>
      simp [hia, hib] <;> omega
  rcases Nat.eq_zero_or_pos l.length with h0 | hpos
  · rw [h0]
    simp
  · have hn : (0 : ℚ) < l.length := by exact_mod_cast hpos
    rw [div_le_div_iff₀ hn hn]
    have hcast : ((la + ra + (if la < ra then 1 else 0) : ℕ) : ℚ) ≤
        ((lb + rb + (if lb < rb then 1 else 0) : ℕ) : ℚ) := by
      exact_mod_cast hnum
    nlinarith [hcast, hn.le]

theorem sqlAvg_append_none (xs ys : List (Option ℚ))
    (h : ∀ y ∈ ys, y = none) : sqlAvg (xs ++ ys) = sqlAvg xs := by
  unfold sqlAvg
  have hnil : ys.filterMap id = [] := by
    rw [List.filterMap_eq_nil_iff]
    intro a ha
    exact h a ha
  rw [List.filterMap_append, hnil, List.append_nil]

theorem temp_submeasure_groups_cc_invariant (f : AggregatedScore → ℕ)
    (agg : List AggregatedScore) :
    temp_submeasure_groups
        (agg.map (fun r => { r with component_count := f r })) =
      temp_submeasure_groups agg := by
  unfold temp_submeasure_groups
  have h1 : (agg.map (fun r => { r with component_count := f r })).filter
      (fun r => r.measure_level = "metric_group") =
      (agg.filter (fun r => r.measure_level = "metric_group")).map
        (fun r => { r with component_count := f r }) := by
    rw [List.filter_map]
    rfl
  have h2 := sqlGroups_map (fun r : AggregatedScore => (r.fips, r.parent_measure))
    (fun r => { r with component_count := f r }) (fun a => rfl)
    (agg.filter (fun r => r.measure_level = "metric_group"))
  rw [h1, h2, List.filterMap_map]
  apply List.filterMap_congr
  intro kg _
  rcases kg with ⟨⟨kfips, kparent⟩, rows⟩
  cases kparent with
  | none => rfl
  | some parent =>
    simp only [Function.comp_apply, List.map_map, List.length_map]
    rfl

theorem aggregate_top_level_cc_invariant (f : AggregatedScore → ℕ)
    (agg : List AggregatedScore) :
    aggregate_top_level_measures
        (agg.map (fun r => { r with component_count := f r })) =
      aggregate_top_level_measures agg := by
  simp only [aggregate_top_level_measures]
  have h1 : (agg.map (fun r => { r with component_count := f r })).filter
      (fun r => r.measure_level = "sub_measure" &&
        (r.parent_measure = some "People" ||
          r.parent_measure = some "Productivity" ||
          r.parent_measure = some "Place")) =
      (agg.filter (fun r => r.measure_level = "sub_measure" &&
        (r.parent_measure = some "People" ||
          r.parent_measure = some "Productivity" ||
          r.parent_measure = some "Place"))).map
        (fun r => { r with component_count := f r }) := by
    rw [List.filter_map]
    rfl
  have h2 := sqlGroups_map (fun r : AggregatedScore => (r.fips, r.parent_measure))
    (fun r => { r with component_count := f r }) (fun a => rfl)
    (agg.filter (fun r => r.measure_level = "sub_measure" &&
      (r.parent_measure = some "People" ||
        r.parent_measure = some "Productivity" ||
        r.parent_measure = some "Place")))
  rw [h1, h2, List.map_map]
  apply List.map_congr_left
  intro kg _
  simp only [Function.comp_apply]
  unfold topLevelRow
  simp only [List.map_map, List.length_map, List.filter_map]
  rfl

theorem normalizeRow_metric_name (st : MetricStatistics) (vals : List ℚ)
    (r : RawMetric) : (normalizeRow st vals r).metric_name = st.metric_name := by
  unfold normalizeRow
  split <;> rfl

theorem normalizeRow_percentile_of_valid (st : MetricStatistics)
    (vals : List ℚ) (r : RawMetric) (x : ℚ) (hmiss : r.is_missing = false)
    (hval : r.raw_value = some x) (hvals : vals ≠ []) :
    (normalizeRow st vals r).percentile_rank =
      some (if st.is_reverse_metric then 100 - percentileOfScore vals x
        else percentileOfScore vals x) := by
  unfold normalizeRow
  simp only [hmiss, hval, Bool.false_or, decide_eq_true_eq]
  rw [if_neg (by simp)]
  simp only [Option.getD_some]
  rw [if_neg (by simp [List.isEmpty_iff, hvals])]
  cases hrev : st.is_reverse_metric <;> simp [hrev]

/-! ## Claim theorems -/

/-- C1 counterexample: on the spec's own example — one Pass-1 metric group of
five leaves at percentile 80 plus one direct leaf at percentile 20 — Pass 2
produces sub-measure percentile 500/7 ≈ 71.43, not the claimed
component-count-weighted (5·80 + 1·20)/6 = 70 (and not the unweighted 50):
the leaf CTE also re-counts the five grouped leaves, and the group CTE
weights the group row as one row. -/
theorem C1_counterexample :
    (aggregate_sub_measures nmWeighted
        (aggregate_metric_groups nmWeighted rmWeighted) rmWeighted).map
      (fun r => r.percentile_rank) = [some (500 / 7)] ∧
    (500 / 7 : ℚ) ≠ (5 * 80 + 1 * 20) / 6 ∧
    (500 / 7 : ℚ) ≠ (80 + 20) / 2 := by
  refine ⟨?_, by norm_num, by norm_num⟩
  with_unfolding_all decide

/-- C1 (amended): Pass 2 combines the average over ALL leaf rows of the
sub-measure (including leaves already rolled into Pass-1 groups), weighted
by the number of leaf rows, with the average of the Pass-1 group rows'
scores weighted by the NUMBER of group rows: the `component_count` stored on
the metric_group rows is never read (changing it arbitrarily leaves Pass 2's
output unchanged), and on the spec's example the result is 500/7 with
component_count 6 + 1 = 7. -/
theorem C1_weighting :
    (∀ (f : AggregatedScore → ℕ) (nm : List NormalizedMetric)
       (agg : List AggregatedScore) (rm : List RawMetric),
      aggregate_sub_measures nm
          (agg.map (fun r => { r with component_count := f r })) rm =
        aggregate_sub_measures nm agg rm) ∧
    (aggregate_sub_measures nmWeighted
        (aggregate_metric_groups nmWeighted rmWeighted) rmWeighted).map
      (fun r => (r.percentile_rank, r.component_count)) =
      [(some (500 / 7), 7)] := by
  constructor
  · intro f nm agg rm
    simp only [aggregate_sub_measures]
    rw [temp_submeasure_groups_cc_invariant]
  · with_unfolding_all decide

/-- C2 counterexample: a county whose two leaf metrics in a group are both
missing still gets a Pass-1 `aggregated_scores` row (with `NULL` scores),
and the Pass-2 row built on top of it coalesces the `NULL` averages to 0 and
emits percentile_rank 0 — so an all-missing measure is neither absent nor
free of zero contributions. -/
theorem C2_counterexample :
    aggregate_metric_groups nmAllMissing rmAllMissing ≠ [] ∧
    (aggregate_sub_measures nmAllMissing
        (aggregate_metric_groups nmAllMissing rmAllMissing)
        rmAllMissing).map (fun r => r.percentile_rank) = [some 0] := by
  constructor
  · with_unfolding_all decide
  · with_unfolding_all decide

/-- C2 (amended): every `aggregated_scores` row at every level has
`component_count ≥ 1`, but an all-missing group still produces a Pass-1 row
whose scores are `NULL` (component_count 2, zero valid components), and
Pass 2 turns that `NULL` into an emitted percentile of 0 via
`COALESCE(..., 0)`. -/
theorem C2_componentCounts :
    (∀ (nm : List NormalizedMetric) (rm : List RawMetric)
       (row : AggregatedScore),
      row ∈ aggregate_metric_groups nm rm → 1 ≤ row.component_count) ∧
    (∀ (nm : List NormalizedMetric) (agg : List AggregatedScore)
       (rm : List RawMetric) (row : AggregatedScore),
      row ∈ aggregate_sub_measures nm agg rm → 1 ≤ row.component_count) ∧
    (∀ (agg : List AggregatedScore) (row : AggregatedScore),
      row ∈ aggregate_top_level_measures agg → 1 ≤ row.component_count) ∧
    (aggregate_metric_groups nmAllMissing rmAllMissing).map
      (fun r => (r.normalized_score, r.percentile_rank, r.component_count)) =
      [(none, none, 2)] ∧
    (aggregate_sub_measures nmAllMissing
        (aggregate_metric_groups nmAllMissing rmAllMissing)
        rmAllMissing).map (fun r => r.percentile_rank) = [some 0] := by
  refine ⟨?_, ?_, ?_, by with_unfolding_all decide,
    by with_unfolding_all decide⟩
  · intro nm rm row h
    unfold aggregate_metric_groups at h
    rcases List.mem_filterMap.1 h with ⟨kg, hkg, hsome⟩
    by_cases hc : 1 < distinctMetricCount kg.2
    · rw [if_pos hc] at hsome
      cases hsome
      have hpos : 1 ≤ kg.2.length := by
        unfold metricGroupGroups at hkg
        exact sqlGroups_length_pos hkg
      simpa [metricGroupRow] using hpos
    · rw [if_neg hc] at hsome
      cases hsome
  · intro nm agg rm row h
    simp only [aggregate_sub_measures] at h
    rcases List.mem_append.1 h with h | h
    · rcases List.mem_map.1 h with ⟨m, hm, rfl⟩
      have hmcc : 1 ≤ m.component_count := by
        unfold temp_submeasure_metrics at hm
        rcases List.mem_map.1 hm with ⟨kg, hkg, rfl⟩
        simpa using sqlGroups_length_pos hkg
      simp [subMeasureRow]
      omega
    · rcases List.mem_map.1 h with ⟨g, hgmem, rfl⟩
      have hg : g ∈ temp_submeasure_groups agg := (List.mem_filter.1 hgmem).1
      have hgcc : 1 ≤ g.component_count := by
        unfold temp_submeasure_groups at hg
        rcases List.mem_filterMap.1 hg with ⟨kg, hkg, hsome⟩
        rcases kg with ⟨⟨kfips, kparent⟩, rows⟩
        cases kparent with
        | none => cases hsome
        | some parent =>
          cases hsome
          simpa using sqlGroups_length_pos hkg
      simp [subMeasureRow]
      omega
  · intro agg row h
    simp only [aggregate_top_level_measures] at h
    rcases List.mem_map.1 h with ⟨kg, hkg, rfl⟩
    have hpos : 1 ≤ kg.2.length := sqlGroups_length_pos hkg
    simpa [topLevelRow] using hpos

/-- C2 witness: the component-count bounds applied to the three concrete
pipeline rows. -/
theorem C2_witness :
    1 ≤ oneMissingRow.component_count ∧
    1 ≤ weightedSubRow.component_count ∧
    1 ≤ peopleTopRow.component_count :=
  ⟨C2_componentCounts.1 nmOneMissing rmOneMissing oneMissingRow
      (by with_unfolding_all decide),
   C2_componentCounts.2.1 nmWeighted
      (aggregate_metric_groups nmWeighted rmWeighted) rmWeighted
      weightedSubRow (by with_unfolding_all decide),
   C2_componentCounts.2.2.1 subTwoRows peopleTopRow
      (by with_unfolding_all decide)⟩

/-- C3: Pass 3 averages the sub_measure rows of a category with equal weight
per sub-measure — the sub-measure `component_count` column is never read
(modifying it arbitrarily leaves the output unchanged) — and on the spec's
example (components 20 at percentile 90, 2 at percentile 10) the top-level
percentile is 50 = (90+10)/2, not the component-weighted
(20·90 + 2·10)/22. -/
theorem C3_equalWeightTopLevel :
    (∀ (f : AggregatedScore → ℕ) (agg : List AggregatedScore),
      aggregate_top_level_measures
          (agg.map (fun r => { r with component_count := f r })) =
        aggregate_top_level_measures agg) ∧
    (aggregate_top_level_measures subTwoRows).map
      (fun r => (r.measure_name, r.percentile_rank)) = [("People", some 50)] ∧
    (50 : ℚ) = (90 + 10) / 2 ∧
    (50 : ℚ) ≠ (20 * 90 + 2 * 10) / 22 := by
  refine ⟨aggregate_top_level_cc_invariant, ?_, by norm_num, by norm_num⟩
  with_unfolding_all decide

/-- C4: in Pass 1 a group's `normalized_score` and `percentile_rank` are the
means over its non-missing children only — appending extra all-missing
children changes neither score while raising `component_count` — and on the
3-leaf/1-missing fixture the group's `normalized_score` is the mean 2 of the
two present Z-scores 1 and 3 (not the treat-missing-as-zero 4/3) with
`completeness_ratio` 2/3. -/
theorem C4_missingExcluded :
    (∀ (k : String × String × String × Option String)
       (ch extra : List (NormalizedMetric × RawMetric)),
      (∀ e ∈ extra, e.1.is_missing = true) →
        (metricGroupRow k (ch ++ extra)).normalized_score =
            (metricGroupRow k ch).normalized_score ∧
          (metricGroupRow k (ch ++ extra)).percentile_rank =
            (metricGroupRow k ch).percentile_rank ∧
          (metricGroupRow k (ch ++ extra)).component_count =
            (metricGroupRow k ch).component_count + extra.length) ∧
    (aggregate_metric_groups nmOneMissing rmOneMissing).map
      (fun r => (r.normalized_score, r.percentile_rank,
        r.completeness_ratio)) = [(some 2, some 20, some (2 / 3))] ∧
    (2 : ℚ) = (1 + 3) / 2 ∧ (2 : ℚ) ≠ (1 + 3 + 0) / 3 := by
  refine ⟨?_, by with_unfolding_all decide, by norm_num, by norm_num⟩
  intro k ch extra hextra
  have hz : ∀ y ∈ extra.map (fun p : NormalizedMetric × RawMetric =>
      if p.1.is_missing = false then p.1.normalized_value else none),
      y = none := by
    intro y hy
    rcases List.mem_map.1 hy with ⟨e, he, rfl⟩
    simp [hextra e he]
  have hp : ∀ y ∈ extra.map (fun p : NormalizedMetric × RawMetric =>
      if p.1.is_missing = false then p.1.percentile_rank else none),
      y = none := by
    intro y hy
    rcases List.mem_map.1 hy with ⟨e, he, rfl⟩
    simp [hextra e he]
  refine ⟨?_, ?_, ?_⟩
  · simp only [metricGroupRow, List.map_append]
    exact sqlAvg_append_none _ _ hz
  · simp only [metricGroupRow, List.map_append]
    exact sqlAvg_append_none _ _ hp
  · simp [metricGroupRow]

/-- C4 witness: the missing-excluded equations applied to a concrete group
key, one valid child and one all-missing extra child. -/
theorem C4_witness :
    (metricGroupRow keyFixture (chFixture ++ extraFixture)).normalized_score =
        (metricGroupRow keyFixture chFixture).normalized_score ∧
      (metricGroupRow keyFixture
          (chFixture ++ extraFixture)).percentile_rank =
        (metricGroupRow keyFixture chFixture).percentile_rank ∧
      (metricGroupRow keyFixture
          (chFixture ++ extraFixture)).component_count =
        (metricGroupRow keyFixture chFixture).component_count +
          extraFixture.length :=
  C4_missingExcluded.1 keyFixture chFixture extraFixture
    (by with_unfolding_all decide)

/-- C5 counterexample: the code never compares `metric_group` with
`sub_measure` — a flat 2-segment metric (whose loader-assigned
`metric_group` equals its capitalized `sub_measure`) grouped with a
3-segment metric whose third path segment is that same word produces a
Pass-1 row `People_Health_Health` whose group name equals the sub-measure
name and whose two members include the flat metric. -/
theorem C5_counterexample :
    aggregate_metric_groups nmFlatCollision rmFlatCollision =
      [collisionRow] ∧
    collisionRow.measure_name = "People_Health_Health" ∧
    (mkRaw "01001" "PEOPLE_HEALTH" (some 1) false).metric_group =
      some ((mkRaw "01001" "PEOPLE_HEALTH" (some 1) false).sub_measure) := by
  refine ⟨by with_unfolding_all decide, rfl, by with_unfolding_all decide⟩

/-- C5 (amended): Pass 1 emits a row exactly for the groups with at least
two distinct leaf metric names — the only `HAVING` condition; no
group-differs-from-sub-measure check exists — and singleton groups (an
isolated flat 2-segment metric, a single-leaf nested group) produce no
row. -/
theorem C5_groupCondition :
    (∀ (nm : List NormalizedMetric) (rm : List RawMetric)
       (row : AggregatedScore), row ∈ aggregate_metric_groups nm rm →
      ∃ kg ∈ metricGroupGroups nm rm,
        row = metricGroupRow kg.1 kg.2 ∧ 1 < distinctMetricCount kg.2) ∧
    aggregate_metric_groups nmSingletons rmSingletons = [] := by
  constructor
  · intro nm rm row h
    unfold aggregate_metric_groups at h
    rcases List.mem_filterMap.1 h with ⟨kg, hkg, hsome⟩
    by_cases hc : 1 < distinctMetricCount kg.2
    · rw [if_pos hc] at hsome
      cases hsome
      exact ⟨kg, hkg, rfl, hc⟩
    · rw [if_neg hc] at hsome
      cases hsome
  · with_unfolding_all decide

/-- C5 witness: the emitted-row characterisation applied to the
name-collision fixture row. -/
theorem C5_witness :
    ∃ kg ∈ metricGroupGroups nmFlatCollision rmFlatCollision,
      collisionRow = metricGroupRow kg.1 kg.2 ∧
        1 < distinctMetricCount kg.2 :=
  C5_groupCondition.1 nmFlatCollision rmFlatCollision collisionRow
    (by with_unfolding_all decide)

/-- C6: for two valid observations of one metric with raw values a < b, the
stored percentiles are monotone (inverted and equal to 100 minus the raw
percentile-of-score when the metric is flagged reverse, non-decreasing
otherwise). -/
theorem C6_reverseMonotone (st : MetricStatistics) (raw : List RawMetric)
    (rA rB : RawMetric) (a b : ℚ)
    (hArow : rA ∈ raw) (hBrow : rB ∈ raw)
    (hname : rB.metric_name = rA.metric_name)
    (hAmiss : rA.is_missing = false) (hBmiss : rB.is_missing = false)
    (hAval : rA.raw_value = some a) (hBval : rB.raw_value = some b)
    (hab : a < b) :
    ∃ pA pB,
      (normalizeRow st (validValues raw rA.metric_name) rA).percentile_rank =
          some pA ∧
        (normalizeRow st (validValues raw rA.metric_name) rB).percentile_rank =
          some pB ∧
        (st.is_reverse_metric = true →
          pB ≤ pA ∧
            pA = 100 - percentileOfScore (validValues raw rA.metric_name) a) ∧
        (st.is_reverse_metric = false → pA ≤ pB) := by
  have hAin : a ∈ validValues raw rA.metric_name := by
    unfold validValues
    refine List.mem_filterMap.2 ⟨rA, ?_, hAval⟩
    refine List.mem_filter.2 ⟨hArow, ?_⟩
    simp [hAmiss, hAval]
  have hne : validValues raw rA.metric_name ≠ [] :=
    List.ne_nil_of_mem hAin
  have hA := normalizeRow_percentile_of_valid st
    (validValues raw rA.metric_name) rA a hAmiss hAval hne
  have hB := normalizeRow_percentile_of_valid st
    (validValues raw rA.metric_name) rB b hBmiss hBval hne
  have hmono := percentileOfScore_mono (validValues raw rA.metric_name) hab
  cases hrev : st.is_reverse_metric with
  | false =>
    refine ⟨percentileOfScore (validValues raw rA.metric_name) a,
      percentileOfScore (validValues raw rA.metric_name) b, ?_, ?_, ?_, ?_⟩
    · simpa [hrev] using hA
    · simpa [hrev] using hB
    · intro h
      exact Bool.noConfusion h
    · intro _
      exact hmono
  | true =>
    refine ⟨100 - percentileOfScore (validValues raw rA.metric_name) a,
      100 - percentileOfScore (validValues raw rA.metric_name) b,
      ?_, ?_, ?_, ?_⟩
    · simpa [hrev] using hA
    · simpa [hrev] using hB
    · intro _
      exact ⟨by linarith, rfl⟩
    · intro h
      exact Bool.noConfusion h

/-- C6 witness: the monotonicity statement applied to two concrete valid
observations (raw values 1 < 2) of the non-reverse metric
`PEOPLE_HEALTH_X`. -/
theorem C6_witness :
    ∃ pA pB,
      (normalizeRow statPlain (validValues rawThree rAW.metric_name)
          rAW).percentile_rank = some pA ∧
        (normalizeRow statPlain (validValues rawThree rAW.metric_name)
            rBW).percentile_rank = some pB ∧
        (statPlain.is_reverse_metric = true →
          pB ≤ pA ∧
            pA = 100 -
              percentileOfScore (validValues rawThree rAW.metric_name) 1) ∧
        (statPlain.is_reverse_metric = false → pA ≤ pB) :=
  C6_reverseMonotone statPlain rawThree rAW rBW 1 2
    (by with_unfolding_all decide) (by with_unfolding_all decide)
    (by with_unfolding_all decide) (by with_unfolding_all decide)
    (by with_unfolding_all decide) (by with_unfolding_all decide)
    (by with_unfolding_all decide) (by with_unfolding_all decide)

/-- C7 counterexample: a metric with ten valid and five missing observations
gets `total_counties` 10 — the missing rows are excluded by the
`WHERE raw_value IS NOT NULL` clause before grouping, so the total is not
the claimed 15 — and `data_quality_score` 1, not 10/15. -/
theorem C7_counterexample :
    (calculate_metric_statistics rmTenValidFiveMissing (fun _ => none)
        (fun _ => none)).map
      (fun st => (st.total_counties, st.valid_counties,
        st.data_quality_score)) = [(10, 10, some 1)] ∧
    (rmTenValidFiveMissing.filter
      (fun r => r.metric_name = "PEOPLE_HEALTH_X")).length = 15 ∧
    (10 : ℕ) ≠ 15 ∧ (some (1 : ℚ)) ≠ some ((10 : ℚ) / 15) := by
  refine ⟨by with_unfolding_all decide, by with_unfolding_all decide,
    by decide, ?_⟩
  simp only [ne_eq, Option.some.injEq]
  norm_num

/-- C7 (amended): a `metric_statistics` record exists for a metric exactly
when it has at least ten valid observations; its `total_counties` counts
only observations with a non-`NULL` raw value (missing rows are filtered out
before grouping), `valid_counties` the non-missing ones among those, and
`data_quality_score = valid_counties / total_counties` over those
counts. -/
theorem C7_statsCounts :
    (∀ (raw : List RawMetric) (stddev median : List ℚ → Option ℚ)
       (st : MetricStatistics),
      st ∈ calculate_metric_statistics raw stddev median →
        st.total_counties =
            ((raw.filter (fun r => r.raw_value ≠ none)).filter
              (fun r => r.metric_name = st.metric_name)).length ∧
          st.valid_counties =
            (((raw.filter (fun r => r.raw_value ≠ none)).filter
                (fun r => r.metric_name = st.metric_name)).filter
              (fun r => r.is_missing = false)).length ∧
          10 ≤ st.valid_counties ∧
          st.data_quality_score =
            safeDivide st.valid_counties st.total_counties) ∧
    (∀ (raw : List RawMetric) (stddev median : List ℚ → Option ℚ)
       (name : String),
      10 ≤ (((raw.filter (fun r => r.raw_value ≠ none)).filter
            (fun r => r.metric_name = name)).filter
          (fun r => r.is_missing = false)).length →
        ∃ st ∈ calculate_metric_statistics raw stddev median,
          st.metric_name = name) := by
  constructor
  · intro raw stddev median st h
    simp only [calculate_metric_statistics] at h
    rcases List.mem_filterMap.1 h with ⟨kg, hkg, hsome⟩
    obtain ⟨_, hsnd⟩ := mem_sqlGroups hkg
    by_cases hc : 10 ≤ (kg.2.filter (fun r => r.is_missing = false)).length
    · rw [if_pos hc] at hsome
      cases hsome
      refine ⟨congrArg List.length hsnd, ?_, ?_, rfl⟩
      · exact congrArg (fun l => (List.filter
          (fun r => r.is_missing = false) l).length) hsnd
      · exact hc
    · rw [if_neg hc] at hsome
      cases hsome
  · intro raw stddev median name h10
    have hne : (((raw.filter (fun r => r.raw_value ≠ none)).filter
        (fun r => r.metric_name = name)).filter
          (fun r => r.is_missing = false)) ≠ [] := by
      intro hnil
      rw [hnil] at h10
      simp at h10
    obtain ⟨x, hx⟩ := List.exists_mem_of_ne_nil _ hne
    have hx2 := List.mem_filter.1 hx
    have hx3 := List.mem_filter.1 hx2.1
    have hxrows : x ∈ raw.filter (fun r => r.raw_value ≠ none) := hx3.1
    have hxname : x.metric_name = name := by
      have := hx3.2
      simpa using this
    obtain ⟨kg, hkg, hkey⟩ :=
      @sqlGroups_exists_of_mem RawMetric String _
        (fun r => r.metric_name) _ _ hxrows
    obtain ⟨_, hsnd⟩ := mem_sqlGroups hkg
    have hk1 : kg.1 = name := by rw [hkey, hxname]
    have hcond : 10 ≤ (kg.2.filter (fun r => r.is_missing = false)).length := by
      rw [hsnd, hk1]
      exact h10
    let stRec : MetricStatistics :=
      { metric_name := kg.1
        total_counties := kg.2.length
        valid_counties := (kg.2.filter (fun r => r.is_missing = false)).length
        missing_counties := (kg.2.filter (fun r => r.is_missing = true)).length
        mean_value := sqlAvg (kg.2.map (fun r => r.raw_value))
        std_dev := stddev (kg.2.filterMap (fun r => r.raw_value))
        min_value := (kg.2.filterMap (fun r => r.raw_value)).min?
        max_value := (kg.2.filterMap (fun r => r.raw_value)).max?
        median_value := median (kg.2.filterMap (fun r => r.raw_value))
        is_reverse_metric := kg.1 ∈ reverse_metrics
        data_quality_score := safeDivide
          ((kg.2.filter (fun r => r.is_missing = false)).length)
          kg.2.length }
    refine ⟨stRec, ?_, hk1⟩
    simp only [calculate_metric_statistics]
    refine List.mem_filterMap.2 ⟨kg, hkg, ?_⟩
    rw [if_pos hcond]

/-- C7 witness: the existence direction applied to the
ten-valid/five-missing fixture. -/
theorem C7_witness :
    ∃ st ∈ calculate_metric_statistics rmTenValidFiveMissing
        (fun _ => none) (fun _ => none),
      st.metric_name = "PEOPLE_HEALTH_X" :=
  C7_statsCounts.2 rmTenValidFiveMissing (fun _ => none) (fun _ => none)
    "PEOPLE_HEALTH_X" (by with_unfolding_all decide)

/-- C8: the raw value cleaner maps the spec's five edge cases as claimed,
and on every input string it returns either a parsed value with
`is_missing = False` or `(None, True)` — a parse failure degrades to
missing instead of raising. -/
theorem C8_cleanValues :
    clean_numeric_value "$1,234.56" = (some (123456 / 100), false) ∧
    clean_numeric_value "(42)" = (some (-42), false) ∧
    clean_numeric_value "N/A" = (none, true) ∧
    clean_numeric_value "" = (none, true) ∧
    clean_numeric_value "12%" = (some 12, false) ∧
    ∀ s : String, clean_numeric_value s = (none, true) ∨
      ∃ q : ℚ, clean_numeric_value s = (some q, false) := by
  refine ⟨?_, by with_unfolding_all decide, by with_unfolding_all decide,
    by with_unfolding_all decide, by with_unfolding_all decide, ?_⟩
  · have h1 : clean_numeric_value "$1,234.56" =
        (some ((1 : ℚ) * (((123456 : ℕ) : ℚ) / ((100 : ℕ) : ℚ))), false) := by
      with_unfolding_all rfl
    rw [h1]
    norm_num
  · intro s
    simp only [clean_numeric_value]
    split
    · exact Or.inl rfl
    · split
      · next v _ => exact Or.inr ⟨v, rfl⟩
      · exact Or.inl rfl

/-- C9: Pass 3 emits rows only under the three hardcoded warehouse category
names People, Productivity and Place; sub-measure rows whose parent is any
other string (such as the presentation layer's renamed
Society/Economy/Environment categories) produce no top-level row at all. -/
theorem C9_hardcodedTopLevels :
    (∀ (agg : List AggregatedScore) (row : AggregatedScore),
      row ∈ aggregate_top_level_measures agg →
        row.measure_name = "People" ∨ row.measure_name = "Productivity" ∨
          row.measure_name = "Place") ∧
    (∀ agg : List AggregatedScore,
      (∀ r ∈ agg, r.measure_level = "sub_measure" →
        r.parent_measure ≠ some "People" ∧
          r.parent_measure ≠ some "Productivity" ∧
          r.parent_measure ≠ some "Place") →
      aggregate_top_level_measures agg = []) := by
  constructor
  · intro agg row h
    simp only [aggregate_top_level_measures] at h
    rcases List.mem_map.1 h with ⟨kg, hkg, rfl⟩
    obtain ⟨hfst, _⟩ := mem_sqlGroups hkg
    rcases List.mem_map.1 hfst with ⟨r, hr, hkey⟩
    have hrp := (List.mem_filter.1 hr).2
    simp only [Bool.and_eq_true, Bool.or_eq_true, decide_eq_true_eq] at hrp
    have h2 : kg.1.2 = r.parent_measure := by rw [← hkey]
    rcases hrp.2 with (hp | hp) | hp
    · left
      show kg.1.2.getD "" = "People"
      rw [h2, hp]
      rfl
    · right; left
      show kg.1.2.getD "" = "Productivity"
      rw [h2, hp]
      rfl
    · right; right
      show kg.1.2.getD "" = "Place"
      rw [h2, hp]
      rfl
  · intro agg hnone
    simp only [aggregate_top_level_measures]
    have hfil : agg.filter (fun r =>
        r.measure_level = "sub_measure" &&
          (r.parent_measure = some "People" ||
            r.parent_measure = some "Productivity" ||
            r.parent_measure = some "Place")) = [] := by
      rw [List.filter_eq_nil_iff]
      intro r hr
      simp only [Bool.and_eq_true, Bool.or_eq_true, decide_eq_true_eq,
        not_and, not_or]
      intro hlevel
      obtain ⟨h1, h2, h3⟩ := hnone r hr hlevel
      exact ⟨⟨h1, h2⟩, h3⟩
    rw [hfil]
    rfl

/-- C9 witness: the characterisation applied to the two-sub-measure fixture
(whose top-level row is named People) and to the Society-named fixture
(which yields no top-level rows). -/
theorem C9_witness :
    (peopleTopRow.measure_name = "People" ∨
      peopleTopRow.measure_name = "Productivity" ∨
      peopleTopRow.measure_name = "Place") ∧
    aggregate_top_level_measures subSocietyRow = [] :=
  ⟨C9_hardcodedTopLevels.1 subTwoRows peopleTopRow
      (by with_unfolding_all decide),
   C9_hardcodedTopLevels.2 subSocietyRow (by with_unfolding_all decide)⟩

/-- The appended rows of a `normalize_metrics` run contain no row for a
metric already present in `normalized_metrics`. -/
theorem normalizeNewRows_filter_nil (stats : List MetricStatistics)
    (raw : List RawMetric) (processed : List String) (name : String)
    (h : name ∈ processed) :
    (normalizeNewRows stats raw processed).filter
      (fun r => r.metric_name = name) = [] := by
  rw [List.filter_eq_nil_iff]
  intro x hx
  unfold normalizeNewRows at hx
  rcases List.mem_flatMap.1 hx with ⟨st, hst, hxin⟩
  by_cases hmem : st.metric_name ∈ processed
  · rw [if_pos hmem] at hxin
    cases hxin
  · rw [if_neg hmem] at hxin
    rcases List.mem_map.1 hxin with ⟨r0, _, rfl⟩
    simp only [normalizeRow_metric_name, decide_eq_true_eq]
    intro heq
    exact hmem (heq ▸ h)

/-- C10: re-running `normalize_metrics` leaves the `normalized_metrics`
rows of every already-processed metric unchanged — a metric with any
existing rows is skipped, so no new rows with its name are appended. -/
theorem C10_resumeSkip :
    ∀ (stats : List MetricStatistics) (raw : List RawMetric)
      (existing : List NormalizedMetric) (name : String),
      (∃ r ∈ existing, r.metric_name = name) →
        (normalize_metrics stats raw existing).filter
            (fun r => r.metric_name = name) =
          existing.filter (fun r => r.metric_name = name) := by
  intro stats raw existing name hex
  obtain ⟨r, hr, hrname⟩ := hex
  have hproc : name ∈ uniqueKeys (existing.map (fun r => r.metric_name)) :=
    mem_uniqueKeys.2 (List.mem_map.2 ⟨r, hr, hrname⟩)
  unfold normalize_metrics
  rw [List.filter_append, normalizeNewRows_filter_nil _ _ _ _ hproc,
    List.append_nil]

/-- C10 witness: a second run over a table that already holds
`PEOPLE_HEALTH_X` rows leaves those rows unchanged. -/
theorem C10_witness :
    (normalize_metrics [statPlain] rawThree existingW).filter
        (fun r => r.metric_name = "PEOPLE_HEALTH_X") =
      existingW.filter (fun r => r.metric_name = "PEOPLE_HEALTH_X") :=
  C10_resumeSkip [statPlain] rawThree existingW "PEOPLE_HEALTH_X"
    (by with_unfolding_all decide)

end CountyDashboard
